import Mathlib

/-!
Shallow embedding of the audio subsystem of the diGiT-WorLd repository:
`game/managers/soundmanager.py` (class `SoundManager`) and the loading
sequence of `game/main.py` (`_load_sounds`, `_draw_loading_screen`).

Modelling decisions:
* A loaded `pygame.mixer.Sound` handle is an opaque `Nat` identifier.
* The Python dict `self.sounds` is an association list with dict
  lookup/overwrite semantics (`dictLookup` / `dictInsert`).
* The Python set `self._missing_sounds` is a duplicate-free `List String`
  (`setAdd` only inserts absent elements, matching `set.add`).
* Backend outcomes that the Python code observes via exceptions or
  queries (`pygame.mixer.Sound(path)` failing with `pygame.error`,
  `pygame.mixer.find_channel()` returning a channel or `None`,
  `os.path.exists`, `pygame.mixer.music.load/play` failing) are explicit
  oracle arguments of the corresponding operations, so every operation
  is a total function `state → state × effects`.
* Calls into the backend and log lines are recorded as an `Effect` trace.
-/

/-- Opaque handle for a decoded `pygame.mixer.Sound` object. -/
abbrev Sound := Nat

/-- Observable side effects of `SoundManager` operations: log warnings and
calls dispatched to the pygame backend. -/
inductive Effect where
  | warnLoadFailed (name : String) (path : String)
  | warnMissing (name : String)
  | channelPlay (channel : Nat) (sound : Sound)
  | directPlay (sound : Sound)
  | handleSetVolume (sound : Sound) (volume : Rat)
  | musicStart (path : String) (loops : Int)
  | warnMusicError (fileName : String)
  | musicStop
  | musicPause
  | musicUnpause
  deriving DecidableEq, Repr

/-- Model of `os.path.join(self.sound_dir, filename)` for the relative
file names this program uses. -/
def pathJoin (dir fileName : String) : String := dir ++ "/" ++ fileName

/-- Dict lookup (`self.sounds.get(name)`). -/
def dictLookup (name : String) : List (String × Sound) → Option Sound
  | [] => none
  | (k, v) :: rest => if k = name then some v else dictLookup name rest

/-- Dict overwrite (`self.sounds[name] = sound`). -/
def dictInsert (name : String) (h : Sound) (l : List (String × Sound)) :
    List (String × Sound) :=
  (name, h) :: l.filter (fun p => p.1 != name)

/-- Set insertion (`self._missing_sounds.add(name)`): a no-op when the
element is already present. -/
def setAdd (name : String) (l : List String) : List String :=
  if name ∈ l then l else name :: l

/-- Set removal (`self._missing_sounds.remove(name)`). -/
def setRemove (name : String) (l : List String) : List String :=
  l.filter (fun x => x != name)

/-- State of a `SoundManager` instance: the asset directory, the dict of
loaded sounds, the global sound flag and the missing-sound bookkeeping set. -/
structure SoundManager where
  sound_dir : String
  sounds : List (String × Sound)
  sound_on : Bool
  missing_sounds : List String
  deriving DecidableEq, Repr

/-- `SoundManager.__init__`: empty registry, sound enabled, empty missing set. -/
def SoundManager.init (dir : String) : SoundManager :=
  { sound_dir := dir, sounds := [], sound_on := true, missing_sounds := [] }

/-- `SoundManager._warn_missing_sound`: return silently when the name was
already recorded, otherwise record it and emit one warning. -/
def warn_missing_sound (s : SoundManager) (name : String) :
    SoundManager × List Effect :=
  if name ∈ s.missing_sounds then (s, [])
  else ({ s with missing_sounds := setAdd name s.missing_sounds },
        [Effect.warnMissing name])

/-- `SoundManager.load_sound`. `result` is the outcome of
`pygame.mixer.Sound(path)`: `some h` for a decoded handle, `none` when the
constructor raises `pygame.error`. -/
def load_sound (s : SoundManager) (name fileName : String)
    (result : Option Sound) : SoundManager × List Effect :=
  let path := pathJoin s.sound_dir fileName
  match result with
  | none =>
      ({ s with missing_sounds := setAdd name s.missing_sounds },
       [Effect.warnLoadFailed name path])
  | some h =>
      ({ s with
          sounds := dictInsert name h s.sounds,
          missing_sounds :=
            if name ∈ s.missing_sounds then setRemove name s.missing_sounds
            else s.missing_sounds }, [])

/-- `SoundManager.play`. `freeChannel` is the outcome of
`pygame.mixer.find_channel()`. -/
def play (s : SoundManager) (name : String) (freeChannel : Option Nat) :
    SoundManager × List Effect :=
  if !s.sound_on then (s, [])
  else
    match dictLookup name s.sounds with
    | none => warn_missing_sound s name
    | some snd =>
        match freeChannel with
        | some ch => (s, [Effect.channelPlay ch snd])
        | none => (s, [Effect.directPlay snd])

/-- `SoundManager.set_volume`. -/
def set_volume (s : SoundManager) (name : String) (volume : Rat) :
    SoundManager × List Effect :=
  match dictLookup name s.sounds with
  | some snd => (s, [Effect.handleSetVolume snd volume])
  | none => warn_missing_sound s name

/-- `SoundManager.toggle_sound`: flip the global flag, touch nothing else. -/
def toggle_sound (s : SoundManager) : SoundManager :=
  { s with sound_on := !s.sound_on }

/-- `SoundManager.play_music`. `pathExists` is `os.path.exists(path)`;
`backendOk` tells whether `pygame.mixer.music.load/play` completed without
raising `pygame.error`. -/
def play_music (s : SoundManager) (fileName : String)
    (pathExists backendOk : Bool) (loops : Int) :
    SoundManager × List Effect :=
  if !s.sound_on then (s, [])
  else
    let path := pathJoin s.sound_dir fileName
    if !pathExists then warn_missing_sound s fileName
    else if backendOk then (s, [Effect.musicStart path loops])
    else (s, [Effect.warnMusicError fileName])

/-- `SoundManager.play_music` with its default argument `loops = -1`. -/
def play_music_default (s : SoundManager) (fileName : String)
    (pathExists backendOk : Bool) : SoundManager × List Effect :=
  play_music s fileName pathExists backendOk (-1)

/-- Modelled from the spec: the pygame music backend (not part of this
repository) treats a loop count of `-1` as "repeat until explicitly
stopped"; any other count plays a bounded number of repetitions. -/
def backendLoopsForever (loops : Int) : Bool := loops == -1

/-- One `SoundManager` method call together with the backend outcomes it
observes. -/
inductive Op where
  | loadSound (name fileName : String) (result : Option Sound)
  | play (name : String) (freeChannel : Option Nat)
  | setVolume (name : String) (volume : Rat)
  | toggleSound
  | playMusic (fileName : String) (pathExists backendOk : Bool) (loops : Int)
  | stopMusic
  | pauseMusic
  | unpauseMusic
  deriving DecidableEq, Repr

/-- Interpret one operation on the store. -/
def step (s : SoundManager) : Op → SoundManager × List Effect
  | Op.loadSound name fileName result => load_sound s name fileName result
  | Op.play name freeChannel => play s name freeChannel
  | Op.setVolume name volume => set_volume s name volume
  | Op.toggleSound => (toggle_sound s, [])
  | Op.playMusic fileName pathExists backendOk loops =>
      play_music s fileName pathExists backendOk loops
  | Op.stopMusic => (s, [Effect.musicStop])
  | Op.pauseMusic => (s, [Effect.musicPause])
  | Op.unpauseMusic => (s, [Effect.musicUnpause])

/-- Run a sequence of operations, accumulating the effect trace. -/
def run (s : SoundManager) : List Op → SoundManager × List Effect
  | [] => (s, [])
  | op :: ops =>
      let r := step s op
      let rest := run r.1 ops
      (rest.1, r.2 ++ rest.2)

/-- The registry/missing-set separation invariant: no name is a key of
`sounds` while also being a member of `missing_sounds`. -/
def SoundInv (s : SoundManager) : Prop :=
  ∀ p ∈ s.sounds, p.1 ∉ s.missing_sounds

instance (s : SoundManager) : Decidable (SoundInv s) := by
  unfold SoundInv; infer_instance

/-- Per-operation safety condition for the amended registry/missing-set
invariant: a failing `load_sound` must not target a name that currently has
a registry entry, and an unmuted `play_music` for a nonexistent file must
not use a file name that is currently a registry key. All other operations
preserve the invariant unconditionally. -/
def safeOp (s : SoundManager) : Op → Prop
  | Op.loadSound name _ none => dictLookup name s.sounds = none
  | Op.playMusic fileName false _ _ =>
      s.sound_on = false ∨ dictLookup fileName s.sounds = none
  | _ => True

instance (s : SoundManager) (op : Op) : Decidable (safeOp s op) :=
  match op with
  | Op.loadSound name _ none =>
      inferInstanceAs (Decidable (dictLookup name s.sounds = none))
  | Op.loadSound _ _ (some _) => inferInstanceAs (Decidable True)
  | Op.play _ _ => inferInstanceAs (Decidable True)
  | Op.setVolume _ _ => inferInstanceAs (Decidable True)
  | Op.toggleSound => inferInstanceAs (Decidable True)
  | Op.playMusic fileName false _ _ =>
      inferInstanceAs
        (Decidable (s.sound_on = false ∨ dictLookup fileName s.sounds = none))
  | Op.playMusic _ true _ _ => inferInstanceAs (Decidable True)
  | Op.stopMusic => inferInstanceAs (Decidable True)
  | Op.pauseMusic => inferInstanceAs (Decidable True)
  | Op.unpauseMusic => inferInstanceAs (Decidable True)

/-- Every operation of the trace is safe in the state it is executed in. -/
def safeTrace (s : SoundManager) : List Op → Prop
  | [] => True
  | op :: ops => safeOp s op ∧ safeTrace (step s op).1 ops

instance (s : SoundManager) (ops : List Op) : Decidable (safeTrace s ops) := by
  induction ops generalizing s with
  | nil => exact inferInstanceAs (Decidable True)
  | cons op ops ih => exact @instDecidableAnd _ _ _ (ih _)

/-!
The loading sequence of `game/main.py`.
-/

/-- Pending pygame input events, reduced to what `_load_sounds` inspects:
whether `event.type == pygame.QUIT`. -/
inductive Event where
  | quit
  | other
  deriving DecidableEq, Repr

/-- One manifest entry `(name, (filename, volume))` of `sound_settings`. -/
abbrev Entry := String × String × Rat

/-- Observable steps of the loading sequence: sound-manager effects, the
progress frame presented by `_draw_loading_screen`, the frame-rate throttle
`clock.tick(60)`, and the shutdown pair `pygame.quit()` / `sys.exit()`. -/
inductive LoadEffect where
  | sound (e : Effect)
  | drewFrame (text : String)
  | ticked
  | quitReleased
  | exited
  deriving DecidableEq, Repr

/-- Terminal state of the loading sequence: either the populated store, or
process termination triggered by a window-close event. -/
inductive LoadResult where
  | completed (s : SoundManager)
  | terminated
  deriving DecidableEq, Repr

/-- The progress label rendered by `_draw_loading_screen`:
`f"Loading {current}/{total}"`. -/
def loadingText (current total : Nat) : String :=
  "Loading " ++ toString current ++ "/" ++ toString total

/-- Body of the `for index, (name, (filename, volume)) in enumerate(...)`
loop of `_load_sounds`. `eventBatches` yields, per iteration, the events
drained by `pygame.event.get()`; `results` yields, per iteration, the
backend outcome of `pygame.mixer.Sound`. Each iteration first drains the
pending events and shuts down on a quit event, then loads the entry, sets
its volume, and redraws the loading frame. -/
def load_sounds_from (s : SoundManager) (entries : List Entry)
    (eventBatches : List (List Event)) (results : List (Option Sound))
    (index total : Nat) : LoadResult × List LoadEffect :=
  match entries with
  | [] => (LoadResult.completed s, [])
  | (name, fileName, volume) :: rest =>
      if Event.quit ∈ eventBatches.headD [] then
        (LoadResult.terminated, [LoadEffect.quitReleased, LoadEffect.exited])
      else
        let r1 := load_sound s name fileName (results.headD none)
        let r2 := set_volume r1.1 name volume
        let rec_ := load_sounds_from r2.1 rest eventBatches.tail results.tail
          (index + 1) total
        (rec_.1,
         (r1.2 ++ r2.2).map LoadEffect.sound
           ++ [LoadEffect.drewFrame (loadingText index total), LoadEffect.ticked]
           ++ rec_.2)

/-- `_load_sounds`: run the loop over the whole manifest, with `index`
starting at 1 (`enumerate(..., start=1)`) and `total = len(settings_list)`. -/
def load_sounds (s : SoundManager) (entries : List Entry)
    (eventBatches : List (List Event)) (results : List (Option Sound)) :
    LoadResult × List LoadEffect :=
  load_sounds_from s entries eventBatches results 1 entries.length

/-- The straight-line `SoundManager` call sequence of a manifest: for each
entry in order, `load_sound` (with its backend outcome) followed by
`set_volume`. -/
def opsOfManifest : List Entry → List (Option Sound) → List Op
  | [], _ => []
  | (name, fileName, volume) :: rest, results =>
      Op.loadSound name fileName (results.headD none)
        :: Op.setVolume name volume
        :: opsOfManifest rest results.tail

/-- The progress labels presented during a loading trace. -/
def framesShown (trace : List LoadEffect) : List String :=
  trace.filterMap fun e =>
    match e with
    | LoadEffect.drewFrame text => some text
    | _ => none

/-- The sound-manager effects of a loading trace. -/
def soundEffectsOf (trace : List LoadEffect) : List Effect :=
  trace.filterMap fun e =>
    match e with
    | LoadEffect.sound eff => some eff
    | _ => none

/-!
Helper lemmas about the dict and set operations.
-/

lemma dictLookup_none_keys : ∀ {l : List (String × Sound)} {name : String},
    dictLookup name l = none → ∀ p ∈ l, p.1 ≠ name := by
  intro l
  induction l with
  | nil => intro name _ p hp; cases hp
  | cons q rest ih =>
      intro name h p hp
      obtain ⟨k, v⟩ := q
      by_cases hk : k = name
      · simp [dictLookup, hk] at h
      · rcases List.mem_cons.mp hp with rfl | hp
        · exact hk
        · have h' : dictLookup name rest = none := by
            simpa [dictLookup, hk] using h
          exact ih h' p hp

lemma mem_setAdd {x name : String} {l : List String} :
    x ∈ setAdd name l ↔ x = name ∨ x ∈ l := by
  by_cases hmem : name ∈ l
  · simp only [setAdd, if_pos hmem]
    constructor
    · exact Or.inr
    · rintro (rfl | h)
      · exact hmem
      · exact h
  · simp [setAdd, if_neg hmem, List.mem_cons]

lemma not_mem_setRemove (name : String) (l : List String) :
    name ∉ setRemove name l := by
  simp [setRemove]

lemma setRemove_subset (name : String) (l : List String) :
    setRemove name l ⊆ l := by
  intro x hx
  exact List.mem_of_mem_filter hx

lemma dictLookup_dictInsert_self (name : String) (h : Sound)
    (l : List (String × Sound)) :
    dictLookup name (dictInsert name h l) = some h := by
  simp [dictInsert, dictLookup]

/-!
Preservation of the registry/missing-set invariant.
-/

lemma soundInv_warn (s : SoundManager) (name : String) (hInv : SoundInv s)
    (hname : dictLookup name s.sounds = none) :
    SoundInv (warn_missing_sound s name).1 := by
  unfold warn_missing_sound
  split
  · exact hInv
  · intro p hp hmem
    rcases mem_setAdd.mp hmem with h | h
    · exact dictLookup_none_keys hname p hp h
    · exact hInv p hp h

lemma soundInv_step (s : SoundManager) (op : Op) (hInv : SoundInv s)
    (hSafe : safeOp s op) : SoundInv (step s op).1 := by
  cases op with
  | loadSound name fileName result =>
      cases result with
      | none =>
          intro p hp hmem
          rcases mem_setAdd.mp hmem with h | h
          · exact dictLookup_none_keys hSafe p hp h
          · exact hInv p hp h
      | some snd =>
          intro p hp hmem
          have hsub :
              (if name ∈ s.missing_sounds then setRemove name s.missing_sounds
               else s.missing_sounds) ⊆ s.missing_sounds := by
            split
            · exact setRemove_subset name s.missing_sounds
            · exact List.Subset.refl _
          have hp' : p ∈ (name, snd) :: s.sounds.filter (fun q => q.1 != name) :=
            hp
          have hmem' :
              p.1 ∈
                (if name ∈ s.missing_sounds then setRemove name s.missing_sounds
                 else s.missing_sounds) := hmem
          rcases List.mem_cons.mp hp' with rfl | hrest
          · by_cases hm : name ∈ s.missing_sounds
            · rw [if_pos hm] at hmem'
              exact not_mem_setRemove name s.missing_sounds hmem'
            · rw [if_neg hm] at hmem'
              exact hm hmem'
          · have hps : p ∈ s.sounds := List.mem_of_mem_filter hrest
            exact hInv p hps (hsub hmem')
  | play name freeChannel =>
      cases hson : s.sound_on with
      | false => simpa [step, play, hson] using hInv
      | true =>
          cases hl : dictLookup name s.sounds with
          | none =>
              simp only [step, play, hson, Bool.not_true, Bool.false_eq_true,
                if_false, hl]
              exact soundInv_warn s name hInv hl
          | some snd =>
              cases freeChannel <;> simpa [step, play, hson, hl] using hInv
  | setVolume name volume =>
      cases hl : dictLookup name s.sounds with
      | none =>
          simp only [step, set_volume, hl]
          exact soundInv_warn s name hInv hl
      | some snd => simpa [step, set_volume, hl] using hInv
  | toggleSound => exact hInv
  | playMusic fileName pathExists backendOk loops =>
      cases hson : s.sound_on with
      | false => simpa [step, play_music, hson] using hInv
      | true =>
          cases pathExists with
          | true =>
              cases backendOk <;> simpa [step, play_music, hson] using hInv
          | false =>
              have hl : dictLookup fileName s.sounds = none := by
                rcases hSafe with h | h
                · rw [hson] at h; cases h
                · exact h
              simp only [step, play_music, hson, Bool.not_true,
                Bool.false_eq_true, if_false, Bool.not_false, if_true]
              exact soundInv_warn s fileName hInv hl
  | stopMusic => exact hInv
  | pauseMusic => exact hInv
  | unpauseMusic => exact hInv

lemma soundInv_run (s : SoundManager) (ops : List Op) (hInv : SoundInv s)
    (hSafe : safeTrace s ops) : SoundInv (run s ops).1 := by
  induction ops generalizing s with
  | nil => exact hInv
  | cons op ops ih =>
      obtain ⟨h1, h2⟩ := hSafe
      simpa [run] using ih (step s op).1 (soundInv_step s op hInv h1) h2

/-!
Repeated `play` calls for a name already recorded as missing.
-/

lemma play_missing_noop (s : SoundManager) (name : String) (ch : Option Nat)
    (hreg : dictLookup name s.sounds = none) (hmem : name ∈ s.missing_sounds) :
    play s name ch = (s, []) := by
  cases hson : s.sound_on with
  | false => simp [play, hson]
  | true => simp [play, hson, hreg, warn_missing_sound, hmem]

lemma run_replicate_play_missing (n : Nat) (s : SoundManager) (name : String)
    (ch : Option Nat) (hreg : dictLookup name s.sounds = none)
    (hmem : name ∈ s.missing_sounds) :
    run s (List.replicate n (Op.play name ch)) = (s, []) := by
  induction n with
  | zero => simp [run]
  | succ m ih =>
      rw [List.replicate_succ]
      simp [run, step, play_missing_noop s name ch hreg hmem, ih]

/-!
Claim theorems.
-/

/-- C1 (corrected). The registry/missing-set separation invariant
`SoundInv` is preserved by every operation sequence in which no failing
`load_sound` targets a name currently in the registry and no unmuted
`play_music` for a nonexistent file uses a file name currently in the
registry (`safeTrace`); moreover a successful late `load_sound` for a name
always removes that name from the missing set. The unrestricted claim is
refuted by `soundInv_violation_failed_reload`. -/
theorem soundInv_preserved_safe (s : SoundManager) (ops : List Op)
    (hInv : SoundInv s) (hSafe : safeTrace s ops) :
    SoundInv (run s ops).1 ∧
    ∀ (t : SoundManager) (name fileName : String) (h : Sound),
      name ∉ (load_sound t name fileName (some h)).1.missing_sounds := by
  refine ⟨soundInv_run s ops hInv hSafe, ?_⟩
  intro t name fileName h
  have hmiss : (load_sound t name fileName (some h)).1.missing_sounds
      = if name ∈ t.missing_sounds then setRemove name t.missing_sounds
        else t.missing_sounds := rfl
  rw [hmiss]
  by_cases hm : name ∈ t.missing_sounds
  · rw [if_pos hm]
    exact not_mem_setRemove name t.missing_sounds
  · rw [if_neg hm]
    exact hm

/-- Witness for C1: a concrete safe trace (failed load, successful late
load, play, mute toggle) preserves the invariant. -/
theorem soundInv_preserved_safe_witness :
    SoundInv (SoundManager.init "snd")
  ∧ safeTrace (SoundManager.init "snd")
      [Op.loadSound "ghost" "missing.mp3" none,
       Op.loadSound "ghost" "ghost.mp3" (some 2),
       Op.play "ghost" (some 0), Op.toggleSound]
  ∧ SoundInv (run (SoundManager.init "snd")
      [Op.loadSound "ghost" "missing.mp3" none,
       Op.loadSound "ghost" "ghost.mp3" (some 2),
       Op.play "ghost" (some 0), Op.toggleSound]).1 :=
  ⟨by decide, by decide,
   (soundInv_preserved_safe (SoundManager.init "snd")
      [Op.loadSound "ghost" "missing.mp3" none,
       Op.loadSound "ghost" "ghost.mp3" (some 2),
       Op.play "ghost" (some 0), Op.toggleSound]
      (by decide) (by decide)).1⟩

/-- Counterexample to C1 as stated: after a successful load of "jump", a
second, failing load of "jump" puts the name into the missing set while
its registry entry is kept, so the name is in both at once. -/
theorem soundInv_violation_failed_reload :
    ¬ SoundInv (run (SoundManager.init "snd")
        [Op.loadSound "jump" "jump.mp3" (some 0),
         Op.loadSound "jump" "jump.mp3" none]).1 := by
  decide

/-- C2 (corrected). With sound enabled and `name` absent from the
registry, `n ≥ 1` consecutive `play name` calls dispatch nothing and emit
exactly one missing-sound warning in total — provided `name` is not
already in the missing set. If `name` is already recorded there (as after
a failed load, which warned by itself), all `n` calls are silent. In both
cases the whole effect trace is the stated warning list, so in particular
no `channelPlay`/`directPlay` effect reaches the backend. The claim as
stated is refuted by `play_unknown_zero_warnings_after_failed_load`. -/
theorem play_unknown_warns_once (s : SoundManager) (name : String)
    (ch : Option Nat) (n : Nat) (hreg : dictLookup name s.sounds = none)
    (hon : s.sound_on = true) (hn : 1 ≤ n) :
    (name ∉ s.missing_sounds →
      (run s (List.replicate n (Op.play name ch))).2 = [Effect.warnMissing name])
  ∧ (name ∈ s.missing_sounds →
      (run s (List.replicate n (Op.play name ch))).2 = []) := by
  obtain ⟨m, rfl⟩ : ∃ m, n = m + 1 := ⟨n - 1, by omega⟩
  constructor
  · intro hfresh
    have hplay : play s name ch
        = ({ s with missing_sounds := setAdd name s.missing_sounds },
           [Effect.warnMissing name]) := by
      simp [play, hon, hreg, warn_missing_sound, hfresh]
    have hstable :
        run { s with missing_sounds := setAdd name s.missing_sounds }
          (List.replicate m (Op.play name ch))
        = ({ s with missing_sounds := setAdd name s.missing_sounds }, []) :=
      run_replicate_play_missing m _ name ch hreg
        (mem_setAdd.mpr (Or.inl rfl))
    rw [List.replicate_succ]
    simp [run, step, hplay, hstable]
  · intro hmem
    rw [run_replicate_play_missing (m + 1) s name ch hreg hmem]

/-- Witness for C2: on a fresh store, five `play "x"` calls produce the
single warning. -/
theorem play_unknown_warns_once_witness :
    dictLookup "x" (SoundManager.init "snd").sounds = none
  ∧ (SoundManager.init "snd").sound_on = true
  ∧ (1 : Nat) ≤ 5
  ∧ "x" ∉ (SoundManager.init "snd").missing_sounds
  ∧ (run (SoundManager.init "snd")
        (List.replicate 5 (Op.play "x" none))).2 = [Effect.warnMissing "x"] :=
  ⟨by decide, by decide, by decide, by decide,
   (play_unknown_warns_once (SoundManager.init "snd") "x" none 5 (by decide)
      (by decide) (by decide)).1 (by decide)⟩

/-- Counterexample to C2 as stated: after a failed load of "ghost"
(mirroring the spec's own manifest example), "ghost" is not in the
registry and sound is on, yet five consecutive `play "ghost"` calls emit
zero warnings, not exactly one — the failed load already recorded the
name, so every play call is silent. -/
theorem play_unknown_zero_warnings_after_failed_load :
    dictLookup "ghost"
        ((load_sound (SoundManager.init "snd") "ghost" "missing.mp3" none).1).sounds
      = none
  ∧ ((load_sound (SoundManager.init "snd") "ghost" "missing.mp3" none).1).sound_on
      = true
  ∧ (run (load_sound (SoundManager.init "snd") "ghost" "missing.mp3" none).1
        (List.replicate 5 (Op.play "ghost" none))).2 = [] := by
  refine ⟨by decide, by decide, by decide⟩

/-- C3 (confirmed). `load_sound` is a total function of the backend
outcome, so no exception propagates. On failure it emits exactly the one
load warning, records the name in the missing set and leaves the registry
untouched; on success it stores the handle under the name, removes the
name from the missing set if present, and emits nothing. -/
theorem load_sound_spec (s : SoundManager) (name fileName : String) :
    ((load_sound s name fileName none).1.sounds = s.sounds
      ∧ name ∈ (load_sound s name fileName none).1.missing_sounds
      ∧ (load_sound s name fileName none).2
          = [Effect.warnLoadFailed name (pathJoin s.sound_dir fileName)])
  ∧ ∀ h : Sound,
      dictLookup name (load_sound s name fileName (some h)).1.sounds = some h
      ∧ name ∉ (load_sound s name fileName (some h)).1.missing_sounds
      ∧ (load_sound s name fileName (some h)).2 = [] := by
  refine ⟨⟨rfl, mem_setAdd.mpr (Or.inl rfl), rfl⟩, ?_⟩
  intro h
  refine ⟨dictLookup_dictInsert_self name h s.sounds, ?_, rfl⟩
  have hmiss : (load_sound s name fileName (some h)).1.missing_sounds
      = if name ∈ s.missing_sounds then setRemove name s.missing_sounds
        else s.missing_sounds := rfl
  rw [hmiss]
  by_cases hm : name ∈ s.missing_sounds
  · rw [if_pos hm]
    exact not_mem_setRemove name s.missing_sounds
  · rw [if_neg hm]
    exact hm

/-- C6 (confirmed). `play_music` is a no-op when muted; when unmuted and
the file does not exist it warns exactly once per file name (first call
warns and records the name, later calls are silent) and never emits a
`musicStart`; when the file exists and the backend fails, the failure is
downgraded to a log line and the call returns normally; the default loop
argument is `-1`, the backend's repeat-until-stopped sentinel. -/
theorem play_music_spec (s : SoundManager) (fileName : String)
    (pe ok : Bool) (loops : Int) :
    (s.sound_on = false → play_music s fileName pe ok loops = (s, []))
  ∧ (s.sound_on = true → fileName ∉ s.missing_sounds →
        (play_music s fileName false ok loops).2 = [Effect.warnMissing fileName]
      ∧ fileName ∈ (play_music s fileName false ok loops).1.missing_sounds)
  ∧ (s.sound_on = true → fileName ∈ s.missing_sounds →
        play_music s fileName false ok loops = (s, []))
  ∧ (s.sound_on = true →
        play_music s fileName true false loops
          = (s, [Effect.warnMusicError fileName]))
  ∧ play_music_default s fileName pe ok = play_music s fileName pe ok (-1)
  ∧ backendLoopsForever (-1) = true := by
  refine ⟨?_, ?_, ?_, ?_, rfl, rfl⟩
  · intro hoff
    simp [play_music, hoff]
  · intro hon hfresh
    constructor
    · simp [play_music, hon, warn_missing_sound, hfresh]
    · have hstate : (play_music s fileName false ok loops).1
          = { s with missing_sounds := setAdd fileName s.missing_sounds } := by
        simp [play_music, hon, warn_missing_sound, hfresh]
      rw [hstate]
      exact mem_setAdd.mpr (Or.inl rfl)
  · intro hon hmem
    simp [play_music, hon, warn_missing_sound, hmem]
  · intro hon
    simp [play_music, hon]

/-- Witness for C6: on a fresh unmuted store, `play_music` for an absent
file warns once. -/
theorem play_music_spec_witness :
    (SoundManager.init "snd").sound_on = true
  ∧ "bgm.mp3" ∉ (SoundManager.init "snd").missing_sounds
  ∧ (play_music (SoundManager.init "snd") "bgm.mp3" false true 2).2
      = [Effect.warnMissing "bgm.mp3"] :=
  ⟨by decide, by decide,
   ((play_music_spec (SoundManager.init "snd") "bgm.mp3" false true 2).2.1
      (by decide) (by decide)).1⟩

/-- C7 (confirmed). While the global flag is off, `play` returns the state
unchanged with an empty effect trace, whatever the registry, the missing
set, or the channel oracle hold. -/
theorem play_muted_noop (s : SoundManager) (name : String) (ch : Option Nat)
    (hmuted : s.sound_on = false) : play s name ch = (s, []) := by
  simp [play, hmuted]

/-- Witness for C7: a muted fresh store ignores a `play` call. -/
theorem play_muted_noop_witness :
    (toggle_sound (SoundManager.init "snd")).sound_on = false
  ∧ play (toggle_sound (SoundManager.init "snd")) "jump" (some 0)
      = (toggle_sound (SoundManager.init "snd"), []) :=
  ⟨by decide,
   play_muted_noop (toggle_sound (SoundManager.init "snd")) "jump" (some 0)
     (by decide)⟩

/-- C8 (confirmed). `toggle_sound` is an involution on the store, a single
call only flips `sound_on` (every other field is unchanged), and the call
emits no effects. -/
theorem toggle_sound_involution (s : SoundManager) :
    toggle_sound (toggle_sound s) = s
  ∧ (toggle_sound s).sound_on = !s.sound_on
  ∧ (toggle_sound s).sounds = s.sounds
  ∧ (toggle_sound s).missing_sounds = s.missing_sounds
  ∧ (toggle_sound s).sound_dir = s.sound_dir
  ∧ (step s Op.toggleSound).2 = [] := by
  refine ⟨?_, rfl, rfl, rfl, rfl, rfl⟩
  simp [toggle_sound]

/-- C9 (confirmed). A failing `load_sound` for an already-registered name
leaves the registry entry intact, and a subsequent unmuted `play`
dispatches the previously loaded handle (on a free mixer channel when one
exists, else directly on the handle). -/
theorem failed_reload_keeps_old_handle (s : SoundManager)
    (name fileName : String) (h : Sound)
    (hloaded : dictLookup name s.sounds = some h) (hon : s.sound_on = true) :
    dictLookup name (load_sound s name fileName none).1.sounds = some h
  ∧ (∀ c : Nat,
      play (load_sound s name fileName none).1 name (some c)
        = ((load_sound s name fileName none).1, [Effect.channelPlay c h]))
  ∧ play (load_sound s name fileName none).1 name none
      = ((load_sound s name fileName none).1, [Effect.directPlay h]) := by
  have hsounds : (load_sound s name fileName none).1.sounds = s.sounds := rfl
  have hson : (load_sound s name fileName none).1.sound_on = true := hon
  refine ⟨by rw [hsounds]; exact hloaded, ?_, ?_⟩
  · intro c
    simp [play, hson, hsounds, hloaded]
  · simp [play, hson, hsounds, hloaded]

/-- Witness for C9: handle 7 loaded for "jump" survives a failed reload. -/
theorem failed_reload_keeps_old_handle_witness :
    dictLookup "jump"
        ((load_sound (SoundManager.init "snd") "jump" "jump.mp3" (some 7)).1).sounds
      = some 7
  ∧ ((load_sound (SoundManager.init "snd") "jump" "jump.mp3" (some 7)).1).sound_on
      = true
  ∧ dictLookup "jump"
      ((load_sound
          (load_sound (SoundManager.init "snd") "jump" "jump.mp3" (some 7)).1
          "jump" "jump.mp3" none).1).sounds = some 7 :=
  ⟨by decide, by decide,
   (failed_reload_keeps_old_handle
      (load_sound (SoundManager.init "snd") "jump" "jump.mp3" (some 7)).1
      "jump" "jump.mp3" 7 (by decide) (by decide)).1⟩

/-- C10 (corrected). While muted, `play` for an unregistered name is a
complete no-op: no warning, no missing-set change (the mute check precedes
the unknown-name check). The single warning for the name is emitted by the
first call that reaches the unknown-name branch, which is either a `play`
while unmuted or a `set_volume` — the latter regardless of the mute flag,
refuting the "while unmuted" qualification of the claim as stated
(`set_volume_warns_while_muted`). Once the name is recorded, both calls
are silent. -/
theorem mute_gates_unknown_warning (s : SoundManager) (name : String)
    (v : Rat) (ch : Option Nat) (hreg : dictLookup name s.sounds = none) :
    (s.sound_on = false → play s name ch = (s, []))
  ∧ (s.sound_on = true → name ∉ s.missing_sounds →
        (play s name ch).2 = [Effect.warnMissing name]
      ∧ name ∈ (play s name ch).1.missing_sounds)
  ∧ (name ∉ s.missing_sounds →
        (set_volume s name v).2 = [Effect.warnMissing name]
      ∧ name ∈ (set_volume s name v).1.missing_sounds)
  ∧ (name ∈ s.missing_sounds →
        (play s name ch).2 = [] ∧ (set_volume s name v).2 = []) := by
  refine ⟨?_, ?_, ?_, ?_⟩
  · intro hoff
    simp [play, hoff]
  · intro hon hfresh
    constructor
    · simp [play, hon, hreg, warn_missing_sound, hfresh]
    · have hstate : (play s name ch).1
          = { s with missing_sounds := setAdd name s.missing_sounds } := by
        simp [play, hon, hreg, warn_missing_sound, hfresh]
      rw [hstate]
      exact mem_setAdd.mpr (Or.inl rfl)
  · intro hfresh
    constructor
    · simp [set_volume, hreg, warn_missing_sound, hfresh]
    · have hstate : (set_volume s name v).1
          = { s with missing_sounds := setAdd name s.missing_sounds } := by
        simp [set_volume, hreg, warn_missing_sound, hfresh]
      rw [hstate]
      exact mem_setAdd.mpr (Or.inl rfl)
  · intro hmem
    constructor
    · rw [play_missing_noop s name ch hreg hmem]
    · simp [set_volume, hreg, warn_missing_sound, hmem]

/-- Witness for C10: a muted `play` for an unknown name changes nothing. -/
theorem mute_gates_unknown_warning_witness :
    dictLookup "x" (toggle_sound (SoundManager.init "snd")).sounds = none
  ∧ (toggle_sound (SoundManager.init "snd")).sound_on = false
  ∧ play (toggle_sound (SoundManager.init "snd")) "x" none
      = (toggle_sound (SoundManager.init "snd"), []) :=
  ⟨by decide, by decide,
   (mute_gates_unknown_warning (toggle_sound (SoundManager.init "snd")) "x" 1
      none (by decide)).1 (by decide)⟩

/-- Counterexample to C10 as stated: `set_volume` has no mute check, so
with the store muted it still emits the missing-sound warning for an
unknown name — the name's single warning is emitted by a call made while
muted, not "while unmuted". -/
theorem set_volume_warns_while_muted :
    (toggle_sound (SoundManager.init "snd")).sound_on = false
  ∧ dictLookup "x" (toggle_sound (SoundManager.init "snd")).sounds = none
  ∧ (set_volume (toggle_sound (SoundManager.init "snd")) "x" 1).2
      = [Effect.warnMissing "x"] := by
  refine ⟨by decide, by decide, by decide⟩

/-!
Loading-sequence lemmas: unfolding equations for `load_sounds_from` and
projections of loading traces.
-/

lemma run_cons (s : SoundManager) (op : Op) (ops : List Op) :
    run s (op :: ops)
      = ((run (step s op).1 ops).1, (step s op).2 ++ (run (step s op).1 ops).2) :=
  rfl

lemma opsOfManifest_cons (name fileName : String) (volume : Rat)
    (rest : List Entry) (results : List (Option Sound)) :
    opsOfManifest ((name, fileName, volume) :: rest) results
      = Op.loadSound name fileName (results.headD none)
          :: Op.setVolume name volume :: opsOfManifest rest results.tail :=
  rfl

lemma load_sounds_from_cons_quit (s : SoundManager) (name fileName : String)
    (volume : Rat) (rest : List Entry) (batches : List (List Event))
    (results : List (Option Sound)) (index total : Nat)
    (hquit : Event.quit ∈ batches.headD []) :
    load_sounds_from s ((name, fileName, volume) :: rest) batches results
        index total
      = (LoadResult.terminated,
         [LoadEffect.quitReleased, LoadEffect.exited]) := by
  have h : load_sounds_from s ((name, fileName, volume) :: rest) batches
        results index total
      = if Event.quit ∈ batches.headD [] then
          (LoadResult.terminated,
           [LoadEffect.quitReleased, LoadEffect.exited])
        else
          ((load_sounds_from
              (set_volume
                (load_sound s name fileName (results.headD none)).1 name
                volume).1 rest batches.tail results.tail (index + 1) total).1,
           ((load_sound s name fileName (results.headD none)).2
              ++ (set_volume
                    (load_sound s name fileName (results.headD none)).1 name
                    volume).2).map LoadEffect.sound
             ++ [LoadEffect.drewFrame (loadingText index total),
                 LoadEffect.ticked]
             ++ (load_sounds_from
                  (set_volume
                    (load_sound s name fileName (results.headD none)).1 name
                    volume).1 rest batches.tail results.tail
                  (index + 1) total).2) := rfl
  rw [h, if_pos hquit]

lemma load_sounds_from_cons_no_quit (s : SoundManager) (name fileName : String)
    (volume : Rat) (rest : List Entry) (batches : List (List Event))
    (results : List (Option Sound)) (index total : Nat)
    (hquit : Event.quit ∉ batches.headD []) :
    load_sounds_from s ((name, fileName, volume) :: rest) batches results
        index total
      = ((load_sounds_from
            (set_volume
              (load_sound s name fileName (results.headD none)).1 name
              volume).1 rest batches.tail results.tail (index + 1) total).1,
         ((load_sound s name fileName (results.headD none)).2
            ++ (set_volume
                  (load_sound s name fileName (results.headD none)).1 name
                  volume).2).map LoadEffect.sound
           ++ [LoadEffect.drewFrame (loadingText index total),
               LoadEffect.ticked]
           ++ (load_sounds_from
                (set_volume
                  (load_sound s name fileName (results.headD none)).1 name
                  volume).1 rest batches.tail results.tail
                (index + 1) total).2) := by
  have h : load_sounds_from s ((name, fileName, volume) :: rest) batches
        results index total
      = if Event.quit ∈ batches.headD [] then
          (LoadResult.terminated,
           [LoadEffect.quitReleased, LoadEffect.exited])
        else
          ((load_sounds_from
              (set_volume
                (load_sound s name fileName (results.headD none)).1 name
                volume).1 rest batches.tail results.tail (index + 1) total).1,
           ((load_sound s name fileName (results.headD none)).2
              ++ (set_volume
                    (load_sound s name fileName (results.headD none)).1 name
                    volume).2).map LoadEffect.sound
             ++ [LoadEffect.drewFrame (loadingText index total),
                 LoadEffect.ticked]
             ++ (load_sounds_from
                  (set_volume
                    (load_sound s name fileName (results.headD none)).1 name
                    volume).1 rest batches.tail results.tail
                  (index + 1) total).2) := rfl
  rw [h, if_neg hquit]

lemma soundEffectsOf_append (t1 t2 : List LoadEffect) :
    soundEffectsOf (t1 ++ t2) = soundEffectsOf t1 ++ soundEffectsOf t2 := by
  simp [soundEffectsOf]

lemma framesShown_append (t1 t2 : List LoadEffect) :
    framesShown (t1 ++ t2) = framesShown t1 ++ framesShown t2 := by
  simp [framesShown]

lemma soundEffectsOf_map_sound (l : List Effect) :
    soundEffectsOf (l.map LoadEffect.sound) = l := by
  induction l with
  | nil => rfl
  | cons e rest ih =>
      simp only [List.map_cons, soundEffectsOf, List.filterMap_cons] at ih ⊢
      rw [ih]

lemma framesShown_map_sound (l : List Effect) :
    framesShown (l.map LoadEffect.sound) = [] := by
  induction l with
  | nil => rfl
  | cons e rest ih =>
      simp only [List.map_cons, framesShown, List.filterMap_cons] at ih ⊢
      exact ih

lemma soundEffectsOf_frame_tick (text : String) :
    soundEffectsOf [LoadEffect.drewFrame text, LoadEffect.ticked] = [] := rfl

lemma framesShown_frame_tick (text : String) :
    framesShown [LoadEffect.drewFrame text, LoadEffect.ticked] = [text] := rfl

lemma load_sounds_from_no_quit (entries : List Entry) (s : SoundManager)
    (batches : List (List Event)) (results : List (Option Sound))
    (index total : Nat)
    (hfree : ∀ b ∈ batches.take entries.length, Event.quit ∉ b) :
    (load_sounds_from s entries batches results index total).1
      = LoadResult.completed (run s (opsOfManifest entries results)).1
  ∧ soundEffectsOf (load_sounds_from s entries batches results index total).2
      = (run s (opsOfManifest entries results)).2
  ∧ framesShown (load_sounds_from s entries batches results index total).2
      = (List.range entries.length).map (fun j => loadingText (index + j) total) := by
  induction entries generalizing s batches results index with
  | nil =>
      refine ⟨rfl, rfl, ?_⟩
      simp [load_sounds_from, framesShown]
  | cons e rest ih =>
      obtain ⟨name, fileName, volume⟩ := e
      have hquit : Event.quit ∉ batches.headD [] := by
        cases batches with
        | nil => simp
        | cons b bs =>
            refine hfree b ?_
            rw [List.length_cons, List.take_succ_cons]
            exact List.mem_cons_self b _
      have hfree' : ∀ b' ∈ batches.tail.take rest.length, Event.quit ∉ b' := by
        cases batches with
        | nil => intro b' hb'; simp at hb'
        | cons b bs =>
            intro b' hb'
            refine hfree b' ?_
            rw [List.length_cons, List.take_succ_cons]
            exact List.mem_cons_of_mem b hb'
      obtain ⟨ih1, ih2, ih3⟩ := ih
        (set_volume (load_sound s name fileName (results.headD none)).1 name
          volume).1
        batches.tail results.tail (index + 1) hfree'
      rw [load_sounds_from_cons_no_quit s name fileName volume rest batches
            results index total hquit,
          opsOfManifest_cons, run_cons, run_cons]
      simp only [step]
      refine ⟨?_, ?_, ?_⟩
      · exact ih1
      · rw [soundEffectsOf_append, soundEffectsOf_append,
            soundEffectsOf_map_sound, soundEffectsOf_frame_tick, ih2,
            List.append_nil, List.append_assoc]
      · rw [framesShown_append, framesShown_append, framesShown_map_sound,
            framesShown_frame_tick, ih3, List.nil_append, List.length_cons,
            List.range_succ_eq_map, List.map_cons, List.map_map]
        have harith : ∀ j : Nat, index + 1 + j = index + Nat.succ j := by
          intro j; omega
        simp [Function.comp_def, harith]

lemma load_sounds_from_quit (k : Nat) (entries : List Entry)
    (s : SoundManager) (batches : List (List Event))
    (results : List (Option Sound)) (index total : Nat)
    (hk : k < entries.length)
    (hfree : ∀ b ∈ batches.take k, Event.quit ∉ b)
    (hquit : Event.quit ∈ batches.getD k []) :
    load_sounds_from s entries batches results index total
      = (LoadResult.terminated,
         (load_sounds_from s (entries.take k) batches results index total).2
           ++ [LoadEffect.quitReleased, LoadEffect.exited]) := by
  induction k generalizing entries s batches results index with
  | zero =>
      cases entries with
      | nil => simp at hk
      | cons e rest =>
          obtain ⟨name, fileName, volume⟩ := e
          have hquit0 : Event.quit ∈ batches.headD [] := by
            cases batches with
            | nil => simp at hquit
            | cons b bs => simpa using hquit
          rw [load_sounds_from_cons_quit s name fileName volume rest batches
                results index total hquit0]
          simp [load_sounds_from]
  | succ k ih =>
      cases entries with
      | nil => simp at hk
      | cons e rest =>
          obtain ⟨name, fileName, volume⟩ := e
          cases batches with
          | nil => simp at hquit
          | cons b bs =>
              have hquitb : Event.quit ∉ b := by
                refine hfree b ?_
                rw [List.take_succ_cons]
                exact List.mem_cons_self b _
              have hfree' : ∀ b' ∈ bs.take k, Event.quit ∉ b' := by
                intro b' hb'
                refine hfree b' ?_
                rw [List.take_succ_cons]
                exact List.mem_cons_of_mem b hb'
              have hquit' : Event.quit ∈ bs.getD k [] := by simpa using hquit
              have hrec := ih rest
                (set_volume
                  (load_sound s name fileName (results.headD none)).1 name
                  volume).1
                bs results.tail (index + 1) (by simpa using hk) hfree' hquit'
              rw [List.take_succ_cons,
                  load_sounds_from_cons_no_quit s name fileName volume rest
                    (b :: bs) results index total (by simpa using hquitb),
                  load_sounds_from_cons_no_quit s name fileName volume
                    (rest.take k) (b :: bs) results index total
                    (by simpa using hquitb)]
              simp only [List.tail_cons] at hrec ⊢
              rw [hrec]
              simp [List.append_assoc]

/-- C5 (confirmed). With no quit event pending in any drained batch, the
loading sequence completes: the resulting store is exactly the one
produced by running `load_sound` then `set_volume` once per manifest
entry, in manifest order; the sound effects of the loading trace are
exactly those of that straight-line run; and the frames presented are the
labels "Loading k/N" for k = 1, 2, ..., N in increasing order, one frame
per entry. -/
theorem load_sounds_no_quit_spec (s : SoundManager) (entries : List Entry)
    (batches : List (List Event)) (results : List (Option Sound))
    (hfree : ∀ b ∈ batches, Event.quit ∉ b) :
    (load_sounds s entries batches results).1
      = LoadResult.completed (run s (opsOfManifest entries results)).1
  ∧ soundEffectsOf (load_sounds s entries batches results).2
      = (run s (opsOfManifest entries results)).2
  ∧ framesShown (load_sounds s entries batches results).2
      = (List.range entries.length).map
          (fun k => loadingText (k + 1) entries.length) := by
  have hfreeA : ∀ b ∈ batches.take entries.length, Event.quit ∉ b :=
    fun b hb => hfree b (List.take_subset entries.length batches hb)
  have hA := load_sounds_from_no_quit entries s batches results 1
    entries.length hfreeA
  refine ⟨hA.1, hA.2.1, ?_⟩
  show framesShown
      (load_sounds_from s entries batches results 1 entries.length).2 = _
  rw [hA.2.2]
  have harith : ∀ j : Nat, 1 + j = j + 1 := by
    intro j; omega
  simp [harith]

/-- Witness for C5: a two-entry manifest with no quit event shows the two
frames "Loading 1/2", "Loading 2/2". -/
theorem load_sounds_no_quit_spec_witness :
    Event.quit ∉ [Event.other]
  ∧ Event.quit ∉ ([] : List Event)
  ∧ framesShown (load_sounds (SoundManager.init "snd")
        [("jump", "jump.mp3", 1), ("hit", "hit.mp3", 0)]
        [[Event.other], []] [some 0, none]).2
      = (List.range 2).map (fun k => loadingText (k + 1) 2) :=
  ⟨by decide, by decide,
   (load_sounds_no_quit_spec (SoundManager.init "snd")
      [("jump", "jump.mp3", 1), ("hit", "hit.mp3", 0)]
      [[Event.other], []] [some 0, none] (by decide)).2.2⟩

/-- C4 (confirmed). The event drain runs at the start of every iteration:
if the first quit event shows up in the batch of iteration `k` (0-based,
after `k` entries were processed quit-free), the sequence terminates
there. The trace is exactly the trace of the first `k` entries followed by
the resource release and process exit; in particular the sound-manager
calls performed are exactly those of the first `k` manifest entries, only
frames 1..k are shown, and no later entry is attempted. -/
theorem load_sounds_quit_halts (s : SoundManager) (entries : List Entry)
    (batches : List (List Event)) (results : List (Option Sound)) (k : Nat)
    (hk : k < entries.length)
    (hfree : ∀ b ∈ batches.take k, Event.quit ∉ b)
    (hquit : Event.quit ∈ batches.getD k []) :
    (load_sounds s entries batches results).1 = LoadResult.terminated
  ∧ (load_sounds s entries batches results).2
      = (load_sounds_from s (entries.take k) batches results 1
           entries.length).2
          ++ [LoadEffect.quitReleased, LoadEffect.exited]
  ∧ soundEffectsOf (load_sounds s entries batches results).2
      = (run s (opsOfManifest (entries.take k) results)).2
  ∧ framesShown (load_sounds s entries batches results).2
      = (List.range k).map (fun j => loadingText (j + 1) entries.length) := by
  have hB := load_sounds_from_quit k entries s batches results 1
    entries.length hk hfree hquit
  have hlen : (entries.take k).length = k := by
    rw [List.length_take]; omega
  have hfreeA : ∀ b ∈ batches.take (entries.take k).length,
      Event.quit ∉ b := by
    rw [hlen]; exact hfree
  have hA := load_sounds_from_no_quit (entries.take k) s batches results 1
    entries.length hfreeA
  have harith : ∀ j : Nat, 1 + j = j + 1 := by
    intro j; omega
  refine ⟨?_, ?_, ?_, ?_⟩
  · show (load_sounds_from s entries batches results 1 entries.length).1 = _
    rw [hB]
  · show (load_sounds_from s entries batches results 1 entries.length).2 = _
    rw [hB]
  · show soundEffectsOf
        (load_sounds_from s entries batches results 1 entries.length).2 = _
    rw [hB, soundEffectsOf_append, hA.2.1]
    simp [soundEffectsOf]
  · show framesShown
        (load_sounds_from s entries batches results 1 entries.length).2 = _
    rw [hB, framesShown_append, hA.2.2, hlen]
    simp [framesShown, harith]

/-- Witness for C4: with a quit event in the second drained batch of a
three-entry manifest, loading terminates after one entry and shows only
frame "Loading 1/3". -/
theorem load_sounds_quit_halts_witness :
    (1 : Nat) < 3
  ∧ Event.quit ∉ ([] : List Event)
  ∧ Event.quit ∈ [Event.quit]
  ∧ (load_sounds (SoundManager.init "snd")
        [("a", "a.mp3", 1), ("b", "b.mp3", 1), ("c", "c.mp3", 1)]
        [[], [Event.quit]] [some 0, some 1, some 2]).1
      = LoadResult.terminated :=
  ⟨by decide, by decide, by decide,
   (load_sounds_quit_halts (SoundManager.init "snd")
      [("a", "a.mp3", 1), ("b", "b.mp3", 1), ("c", "c.mp3", 1)]
      [[], [Event.quit]] [some 0, some 1, some 2] 1 (by decide) (by decide)
      (by decide)).1⟩
